import Mathlib

/-!
Verification development for the lodestar beacon-node sample.

The repository sample ships three TypeScript sources: the epoch-processing
performance test (which fixes the stage pipeline order), the beacon API
module `beacon.ts` (with `BeaconApi.getValidator` and the execution-engine
hex serializers), and the validator `attestation.ts` service.  The epoch
transition engine itself (EpochContext, prepareEpochProcessState and the
six `process*` stages) is referenced by the test but its source is not in
the sample, so those definitions are modelled from the specification
(marked `Modelled from the spec:` below).  Everything taken from a shipped
source file is a direct translation of that file.

Machine integers (u64) are modelled as `Nat`; the TypeScript code uses
BigInt / number arithmetic with truncating division, which `Nat.div`
matches.  Byte strings are `List Nat` (each entry a byte value), JS strings
are Lean `String`.
-/

/-! ## Protocol constants (mainnet preset values) -/

def SLOTS_PER_EPOCH : Nat := 32

def GENESIS_EPOCH : Nat := 0

def FAR_FUTURE_EPOCH : Nat := 2 ^ 64 - 1

def BASE_REWARD_FACTOR : Nat := 64

def BASE_REWARDS_PER_EPOCH : Nat := 4

def PROPOSER_REWARD_QUOTIENT : Nat := 8

def MIN_EPOCHS_TO_INACTIVITY_PENALTY : Nat := 4

def INACTIVITY_PENALTY_QUOTIENT : Nat := 2 ^ 24

def EFFECTIVE_BALANCE_INCREMENT : Nat := 10 ^ 9

def MAX_EFFECTIVE_BALANCE : Nat := 32 * 10 ^ 9

def MIN_PER_EPOCH_CHURN_LIMIT : Nat := 4

def CHURN_LIMIT_QUOTIENT : Nat := 2 ^ 16

def EPOCHS_PER_SLASHINGS_VECTOR : Nat := 2 ^ 13

def EPOCHS_PER_HISTORICAL_VECTOR : Nat := 2 ^ 16

def SLOTS_PER_HISTORICAL_ROOT : Nat := 2 ^ 13

def PROPORTIONAL_SLASHING_MULTIPLIER : Nat := 3

def HYSTERESIS_QUOTIENT : Nat := 4

def HYSTERESIS_DOWNWARD_MULTIPLIER : Nat := 1

def HYSTERESIS_UPWARD_MULTIPLIER : Nat := 5

def MAX_SEED_LOOKAHEAD : Nat := 4

def MIN_VALIDATOR_WITHDRAWABILITY_DELAY : Nat := 256

/-! ## Data model -/

/-- Checkpoint reference: an epoch together with an (abstracted) block root. -/
structure Checkpoint where
  epoch : Nat
  root : Nat
deriving DecidableEq, Repr, Inhabited

/-- Validator registry record (spec section 3). -/
structure Validator where
  pubkey : Nat
  effectiveBalance : Nat
  activationEligibilityEpoch : Nat
  activationEpoch : Nat
  exitEpoch : Nat
  withdrawableEpoch : Nat
  slashed : Bool
deriving DecidableEq, Repr, Inhabited

/-- Pending attestation as recorded in the state; the committee resolution
is abstracted to the list of attesting validator indices plus flags saying
whether the attested target and head match the canonical checkpoints. -/
structure PendingAttestation where
  attesterIndices : List Nat
  targetMatches : Bool
  headMatches : Bool
  inclusionDelay : Nat
  proposerIndex : Nat
deriving DecidableEq, Repr, Inhabited

/-- BeaconState, the replicated ledger (spec section 3). -/
structure BeaconState where
  slot : Nat
  validators : List Validator
  balances : List Nat
  justificationBits : List Bool
  previousJustifiedCheckpoint : Checkpoint
  currentJustifiedCheckpoint : Checkpoint
  finalizedCheckpoint : Checkpoint
  previousEpochAttestations : List PendingAttestation
  currentEpochAttestations : List PendingAttestation
  slashings : List Nat
  randaoMixes : List Nat
  blockRoots : List Nat
  historicalRoots : List Nat
  forkPreviousVersion : Nat
  forkCurrentVersion : Nat
  forkEpoch : Nat
deriving DecidableEq, Repr, Inhabited

/-- EpochContext: per-epoch cache with the append-only public-key to index
table, the scheduled fork, and the total-active-balance cache
(spec sections 3 and 4.1). -/
structure EpochContext where
  pubkey2index : List (Nat × Nat)
  currentEpoch : Nat
  totalActiveBalance : Nat
  scheduledForkVersion : Nat
  scheduledForkEpoch : Nat
deriving DecidableEq, Repr, Inhabited

def computeEpochAtSlot (slot : Nat) : Nat := slot / SLOTS_PER_EPOCH

def isActiveValidator (v : Validator) (epoch : Nat) : Bool :=
  decide (v.activationEpoch ≤ epoch) && decide (epoch < v.exitEpoch)

/-- Modelled from the spec: `EpochContext.load` (section 4.1, source not in
the sample) scans every validator once, extends the public-key to index
table append-only (an already-known key keeps its index), and recomputes
the total active balance for the state's epoch. -/
def EpochContext.loadState (ctx : EpochContext) (s : BeaconState) : EpochContext :=
  let epoch := computeEpochAtSlot s.slot
  let tbl := s.validators.enum.foldl
    (fun t iv => if (t.lookup iv.2.pubkey).isSome then t else t ++ [(iv.2.pubkey, iv.1)])
    ctx.pubkey2index
  { ctx with
    pubkey2index := tbl
    currentEpoch := epoch
    totalActiveBalance :=
      (s.validators.filter (fun v => isActiveValidator v epoch)).foldl
        (fun a v => a + v.effectiveBalance) 0 }

/-- Error taxonomy of spec section 7 for index lookups. -/
inductive IndexLookupError where
  | unknownPubkey (pk : Nat)
deriving DecidableEq, Repr

/-- Modelled from the spec: requesting the index of a public key in the
EpochContext table (section 4.1, source not in the sample); an unknown
public key fails with `IndexLookupError`. -/
def EpochContext.getValidatorIndex (ctx : EpochContext) (pk : Nat) :
    Except IndexLookupError Nat :=
  match ctx.pubkey2index.lookup pk with
  | some i => Except.ok i
  | none => Except.error (IndexLookupError.unknownPubkey pk)

/-! ## BeaconApi.getValidator (from src beacon.ts) -/

/-- ValidatorResponse returned by the beacon API. -/
structure ValidatorResponse where
  validator : Validator
  balance : Nat
  pubkey : Nat
  index : Nat
deriving DecidableEq, Repr, Inhabited

/-- JavaScript truthiness of `epochCtx.pubkey2index.get(pubkey)`: the value
is a number or `undefined`; both `undefined` and `0` are falsy. -/
def truthyIndex : Option Nat → Bool
  | some n => decide (n ≠ 0)
  | none => false

/-- Translation of `BeaconApi.getValidator` from `beacon.ts`: look the
public key up in the context table and test the result with `if (index)`,
returning the record on a truthy index and `null` (here `none`) otherwise. -/
def BeaconApi.getValidator (ctx : EpochContext) (s : BeaconState) (pk : Nat) :
    Option ValidatorResponse :=
  let index := ctx.pubkey2index.lookup pk
  if truthyIndex index then
    some
      { validator := s.validators.getD (index.getD 0) default
        balance := s.balances.getD (index.getD 0) 0
        pubkey := pk
        index := index.getD 0 }
  else
    none

/-! ## EpochProcess working set (spec sections 3 and 4.2) -/

/-- Per-validator status flags of the EpochProcess working set. -/
structure ValidatorStatus where
  activePrev : Bool
  activeCurr : Bool
  attestedPrevSource : Bool
  attestedPrevTarget : Bool
  attestedPrevHead : Bool
  attestedCurrSource : Bool
  attestedCurrTarget : Bool
  inclusionDelay : Nat
  slashed : Bool
  effectiveBalance : Nat
deriving DecidableEq, Repr, Inhabited

/-- EpochProcess: frozen per-validator statuses plus scalar aggregates. -/
structure IEpochProcess where
  currentEpoch : Nat
  prevEpoch : Nat
  totalActiveStake : Nat
  prevSourceUnslashedStake : Nat
  prevTargetUnslashedStake : Nat
  prevHeadUnslashedStake : Nat
  currTargetUnslashedStake : Nat
  statuses : List ValidatorStatus
deriving DecidableEq, Repr, Inhabited

def attestedIn (atts : List PendingAttestation) (i : Nat) : Bool :=
  atts.any (fun a => a.attesterIndices.contains i)

def attestedTargetIn (atts : List PendingAttestation) (i : Nat) : Bool :=
  atts.any (fun a => a.attesterIndices.contains i && a.targetMatches)

def attestedHeadIn (atts : List PendingAttestation) (i : Nat) : Bool :=
  atts.any (fun a => a.attesterIndices.contains i && a.targetMatches && a.headMatches)

/-- Minimum inclusion delay among the attestations that include validator
`i`; only consulted when the validator attested at all. -/
def inclusionDelayOf (atts : List PendingAttestation) (i : Nat) : Nat :=
  ((atts.filter (fun a => a.attesterIndices.contains i)).map
    (fun a => a.inclusionDelay)).foldl min FAR_FUTURE_EPOCH

def makeStatus (s : BeaconState) (currentEpoch prevEpoch i : Nat) (v : Validator) :
    ValidatorStatus :=
  { activePrev := isActiveValidator v prevEpoch
    activeCurr := isActiveValidator v currentEpoch
    attestedPrevSource := attestedIn s.previousEpochAttestations i
    attestedPrevTarget := attestedTargetIn s.previousEpochAttestations i
    attestedPrevHead := attestedHeadIn s.previousEpochAttestations i
    attestedCurrSource := attestedIn s.currentEpochAttestations i
    attestedCurrTarget := attestedTargetIn s.currentEpochAttestations i
    inclusionDelay := inclusionDelayOf s.previousEpochAttestations i
    slashed := v.slashed
    effectiveBalance := v.effectiveBalance }

def sumStake (sts : List ValidatorStatus) (f : ValidatorStatus → Bool) : Nat :=
  sts.foldl (fun acc st => if f st then acc + st.effectiveBalance else acc) 0

/-- Modelled from the spec: `prepareEpochProcessState` (section 4.2, source
not in the sample) makes a single pass over the validator sequence,
computing activity and attestation-participation flags per validator and
the stake aggregates; only unslashed validators count toward the
participation aggregates. -/
def prepareEpochProcessState (_ctx : EpochContext) (s : BeaconState) : IEpochProcess :=
  let currentEpoch := computeEpochAtSlot s.slot
  let prevEpoch := if currentEpoch = GENESIS_EPOCH then GENESIS_EPOCH else currentEpoch - 1
  let statuses := s.validators.enum.map (fun iv => makeStatus s currentEpoch prevEpoch iv.1 iv.2)
  { currentEpoch := currentEpoch
    prevEpoch := prevEpoch
    totalActiveStake := sumStake statuses (fun st => st.activeCurr)
    prevSourceUnslashedStake :=
      sumStake statuses (fun st => st.activePrev && st.attestedPrevSource && !st.slashed)
    prevTargetUnslashedStake :=
      sumStake statuses (fun st => st.activePrev && st.attestedPrevTarget && !st.slashed)
    prevHeadUnslashedStake :=
      sumStake statuses (fun st => st.activePrev && st.attestedPrevHead && !st.slashed)
    currTargetUnslashedStake :=
      sumStake statuses (fun st => st.activeCurr && st.attestedCurrTarget && !st.slashed)
    statuses := statuses }

/-! ## Stage: justification and finalization (spec section 4.3) -/

def blockRootAtEpoch (s : BeaconState) (epoch : Nat) : Nat :=
  s.blockRoots.getD (epoch * SLOTS_PER_EPOCH % SLOTS_PER_HISTORICAL_ROOT) 0

/-- Finalization rule set: the four checkpoint patterns over consecutive
justified bits, evaluated in fixed priority order; the highest-priority
matching pattern decides the new finalized checkpoint, otherwise the old
one is kept (spec section 4.3). -/
def selectFinalized (bits : List Bool) (oldPrev oldCurr finalized : Checkpoint)
    (currentEpoch : Nat) : Checkpoint :=
  if bits.getD 1 false && bits.getD 2 false && bits.getD 3 false
      && decide (oldPrev.epoch + 3 = currentEpoch) then oldPrev
  else if bits.getD 1 false && bits.getD 2 false
      && decide (oldPrev.epoch + 2 = currentEpoch) then oldPrev
  else if bits.getD 0 false && bits.getD 1 false && bits.getD 2 false
      && decide (oldCurr.epoch + 2 = currentEpoch) then oldCurr
  else if bits.getD 0 false && bits.getD 1 false
      && decide (oldCurr.epoch + 1 = currentEpoch) then oldCurr
  else finalized

/-- Modelled from the spec: `processJustificationAndFinalization`
(section 4.3, source not in the sample).  Skipped at or before the second
epoch after genesis; shifts the justification bitfield, sets the low bits
on a two-thirds supermajority of attesting stake for the previous or
current epoch target, and applies the finalization rule set. -/
def processJustificationAndFinalization (_ctx : EpochContext) (p : IEpochProcess)
    (s : BeaconState) : BeaconState :=
  if p.currentEpoch ≤ GENESIS_EPOCH + 1 then s
  else
    let oldPrev := s.previousJustifiedCheckpoint
    let oldCurr := s.currentJustifiedCheckpoint
    let bits1 := false :: s.justificationBits.take 3
    let justPrev := decide (3 * p.prevTargetUnslashedStake ≥ 2 * p.totalActiveStake)
    let justCurr := decide (3 * p.currTargetUnslashedStake ≥ 2 * p.totalActiveStake)
    let bits2 := if justPrev then bits1.set 1 true else bits1
    let bits3 := if justCurr then bits2.set 0 true else bits2
    let newCurrJust :=
      if justCurr then { epoch := p.currentEpoch, root := blockRootAtEpoch s p.currentEpoch }
      else if justPrev then { epoch := p.prevEpoch, root := blockRootAtEpoch s p.prevEpoch }
      else oldCurr
    { s with
      previousJustifiedCheckpoint := oldCurr
      currentJustifiedCheckpoint := newCurrJust
      justificationBits := bits3
      finalizedCheckpoint := selectFinalized bits3 oldPrev oldCurr s.finalizedCheckpoint
        p.currentEpoch }

/-! ## Stage: rewards and penalties (spec section 4.4) -/

/-- Integer (floor) square root, as required by the base reward formula. -/
def integerSqrt (n : Nat) : Nat := Nat.sqrt n

/-- Modelled from the spec: base reward formula of section 4.4, with floor
(truncating) integer division at each division. -/
def getBaseReward (p : IEpochProcess) (effectiveBalance : Nat) : Nat :=
  effectiveBalance * BASE_REWARD_FACTOR / integerSqrt p.totalActiveStake
    / BASE_REWARDS_PER_EPOCH

/-- Reward/penalty pair of one participation component: credited (in full
during an inactivity leak, for the canonical cancellation against the leak
penalty, otherwise scaled by the attesting-stake fraction) when the
validator participated unslashed, or charged one base reward otherwise. -/
def participationComponent (p : IEpochProcess) (br stake : Nat) (ok inLeak : Bool) :
    Nat × Nat :=
  if ok then
    (if inLeak then br
     else br * (stake / EFFECTIVE_BALANCE_INCREMENT)
       / (p.totalActiveStake / EFFECTIVE_BALANCE_INCREMENT), 0)
  else (0, br)

/-- Modelled from the spec: the per-validator delta in section 4.4.
Inactive-in-previous-epoch validators get a zero delta; active ones get
source/target/head components, an inclusion-delay reward inversely
proportional to the delay, and the inactivity-leak penalties when finality
is delayed.  All arithmetic is `Nat` (integer, floor division). -/
def attestationDelta (p : IEpochProcess) (finalityDelay : Nat) (st : ValidatorStatus) :
    Nat × Nat :=
  if st.activePrev = false then (0, 0)
  else
    let br := getBaseReward p st.effectiveBalance
    let inLeak := decide (finalityDelay > MIN_EPOCHS_TO_INACTIVITY_PENALTY)
    let srcOk := st.attestedPrevSource && !st.slashed
    let tgtOk := st.attestedPrevTarget && !st.slashed
    let headOk := st.attestedPrevHead && !st.slashed
    let c1 := participationComponent p br p.prevSourceUnslashedStake srcOk inLeak
    let c2 := participationComponent p br p.prevTargetUnslashedStake tgtOk inLeak
    let c3 := participationComponent p br p.prevHeadUnslashedStake headOk inLeak
    let proposerReward := br / PROPOSER_REWARD_QUOTIENT
    let rIncl := if srcOk then (br - proposerReward) / st.inclusionDelay else 0
    let qLeak :=
      if inLeak then
        BASE_REWARDS_PER_EPOCH * br +
          (if tgtOk then 0
           else st.effectiveBalance * finalityDelay / INACTIVITY_PENALTY_QUOTIENT)
      else 0
    (c1.1 + c2.1 + c3.1 + rIncl, c1.2 + c2.2 + c3.2 + qLeak)

/-- Modelled from the spec: `processRewardsAndPenalties` (section 4.4,
source not in the sample).  Skipped at genesis epoch; computes all deltas
from the frozen EpochProcess and applies them to the balances array as one
batch, saturating at zero (`Nat` subtraction). -/
def processRewardsAndPenalties (_ctx : EpochContext) (p : IEpochProcess)
    (s : BeaconState) : BeaconState :=
  if p.currentEpoch = GENESIS_EPOCH then s
  else
    let finalityDelay := p.prevEpoch - s.finalizedCheckpoint.epoch
    let deltas := p.statuses.map (attestationDelta p finalityDelay)
    { s with balances := List.zipWith (fun b d => b + d.1 - d.2) s.balances deltas }

/-! ## Stage: registry updates (spec section 4.5) -/

def getChurnLimit (activeValidatorCount : Nat) : Nat :=
  max MIN_PER_EPOCH_CHURN_LIMIT (activeValidatorCount / CHURN_LIMIT_QUOTIENT)

def computeActivationExitEpoch (epoch : Nat) : Nat := epoch + 1 + MAX_SEED_LOOKAHEAD

/-- Eligibility for joining the activation queue: maximal effective balance
and no eligibility epoch recorded yet (spec section 4.5, pass 1). -/
def isEligibleForActivationQueue (v : Validator) : Bool :=
  decide (v.activationEligibilityEpoch = FAR_FUTURE_EPOCH)
    && decide (v.effectiveBalance = MAX_EFFECTIVE_BALANCE)

/-- Eligibility for activation itself: eligibility recorded no later than
the finalized epoch, and not yet activated. -/
def isEligibleForActivation (finalizedEpoch : Nat) (v : Validator) : Bool :=
  decide (v.activationEligibilityEpoch ≤ finalizedEpoch)
    && decide (v.activationEpoch = FAR_FUTURE_EPOCH)

/-- Insertion of one element into a list sorted by the boolean order `le`. -/
def insSorted (le : Nat → Nat → Bool) (x : Nat) : List Nat → List Nat
  | [] => [x]
  | y :: ys => if le x y then x :: y :: ys else y :: insSorted le x ys

/-- Insertion sort by the boolean order `le`. -/
def sortByLe (le : Nat → Nat → Bool) : List Nat → List Nat
  | [] => []
  | x :: xs => insSorted le x (sortByLe le xs)

/-- Activation-queue order on validator indices of `s`: ascending by
`(activationEligibilityEpoch, index)`. -/
def activationOrder (s : BeaconState) (i j : Nat) : Bool :=
  let a := (s.validators.getD i default).activationEligibilityEpoch
  let b := (s.validators.getD j default).activationEligibilityEpoch
  decide (a < b) || (decide (a = b) && decide (i ≤ j))

/-- Activation queue: the indices of the validators eligible for
activation, sorted ascending by `(activationEligibilityEpoch, index)`. -/
def activationQueue (s : BeaconState) : List Nat :=
  sortByLe (activationOrder s)
    ((List.range s.validators.length).filter
      (fun i => isEligibleForActivation s.finalizedCheckpoint.epoch
        (s.validators.getD i default)))

/-- Eligibility pass: record the eligibility epoch (once) for validators
newly satisfying the queue condition (spec section 4.5, pass 1). -/
def markEligibility (currentEpoch : Nat) (s : BeaconState) : BeaconState :=
  { s with
    validators := s.validators.map (fun v =>
      if isEligibleForActivationQueue v then
        { v with activationEligibilityEpoch := currentEpoch + 1 }
      else v) }

def activateValidator (currentEpoch : Nat) (v : Validator) : Validator :=
  { v with activationEpoch := computeActivationExitEpoch currentEpoch }

/-- Set the activation epoch of the validators whose (absolute) index is in
`toAct`; `i` is the index of the head of the list. -/
def activateFrom (toAct : List Nat) (currentEpoch i : Nat) :
    List Validator → List Validator
  | [] => []
  | v :: vs =>
    (if toAct.contains i then activateValidator currentEpoch v else v)
      :: activateFrom toAct currentEpoch (i + 1) vs

def countActive (s : BeaconState) (epoch : Nat) : Nat :=
  (s.validators.filter (fun v => isActiveValidator v epoch)).length

/-- Modelled from the spec: exit initiation (section 4.5, source not in the
sample): assign the exiting validator the earliest activation-exit epoch at
which the churn limit is not yet exhausted, plus the withdrawal delay.  It
is triggered by external logic and is not part of the per-epoch pipeline. -/
def initiateValidatorExit (currentEpoch : Nat) (s : BeaconState) (i : Nat) : BeaconState :=
  let v := s.validators.getD i default
  if decide (v.exitEpoch ≠ FAR_FUTURE_EPOCH) then s
  else
    let exitEpochs := (s.validators.filter
      (fun w => decide (w.exitEpoch ≠ FAR_FUTURE_EPOCH))).map (fun w => w.exitEpoch)
    let exitQueueEpoch := exitEpochs.foldl max (computeActivationExitEpoch currentEpoch)
    let exitQueueChurn := (s.validators.filter
      (fun w => decide (w.exitEpoch = exitQueueEpoch))).length
    let exitQueueEpoch :=
      if decide (exitQueueChurn ≥ getChurnLimit (countActive s currentEpoch)) then
        exitQueueEpoch + 1
      else exitQueueEpoch
    { s with
      validators := s.validators.enum.map (fun jw =>
        if jw.1 = i then
          { jw.2 with
            exitEpoch := exitQueueEpoch
            withdrawableEpoch := exitQueueEpoch + MIN_VALIDATOR_WITHDRAWABILITY_DELAY }
        else jw.2) }

/-- Modelled from the spec: `processRegistryUpdates` (section 4.5, source
not in the sample).  Two sequential passes: the eligibility pass records
eligibility epochs, then the activation pass activates the queued
validators in ascending `(activationEligibilityEpoch, index)` order up to
the per-epoch churn limit. -/
def processRegistryUpdates (_ctx : EpochContext) (p : IEpochProcess)
    (s : BeaconState) : BeaconState :=
  let s1 := markEligibility p.currentEpoch s
  let churn := getChurnLimit (countActive s p.currentEpoch)
  let toActivate := (activationQueue s1).take churn
  { s1 with validators := activateFrom toActivate p.currentEpoch 0 s1.validators }

/-! ## Stage: slashings (spec section 4.6) -/

/-- Modelled from the spec: `processSlashings` (section 4.6, source not in
the sample).  Sums the slashings accumulator, and for each slashed
validator whose withdrawable epoch has not yet passed applies the
proportional penalty with floor division at each step in the stated order,
saturating the balance at zero. -/
def processSlashings (_ctx : EpochContext) (p : IEpochProcess) (s : BeaconState) :
    BeaconState :=
  let totalSlashed := s.slashings.foldl (fun a b => a + b) 0
  let total := p.totalActiveStake
  let adj := min (totalSlashed * PROPORTIONAL_SLASHING_MULTIPLIER) total
  { s with
    balances := List.zipWith (fun v b =>
      if v.slashed && decide (p.currentEpoch < v.withdrawableEpoch) then
        b - v.effectiveBalance / EFFECTIVE_BALANCE_INCREMENT * adj / total
          * EFFECTIVE_BALANCE_INCREMENT
      else b) s.validators s.balances }

/-! ## Stage: final updates (spec section 4.7) -/

/-- Effective-balance hysteresis adjustment of one validator. -/
def applyHysteresis (v : Validator) (balance : Nat) : Validator :=
  let hysteresisIncrement := EFFECTIVE_BALANCE_INCREMENT / HYSTERESIS_QUOTIENT
  let downward := hysteresisIncrement * HYSTERESIS_DOWNWARD_MULTIPLIER
  let upward := hysteresisIncrement * HYSTERESIS_UPWARD_MULTIPLIER
  if decide (balance + downward < v.effectiveBalance)
      || decide (v.effectiveBalance + upward < balance) then
    { v with
      effectiveBalance :=
        min (balance - balance % EFFECTIVE_BALANCE_INCREMENT) MAX_EFFECTIVE_BALANCE }
  else v

/-- Modelled from the spec: `processFinalUpdates` (section 4.7, source not
in the sample).  Applies effective-balance hysteresis, clears the oldest
slashings slot, appends the next randao mix, rotates current-epoch
attestations into previous-epoch, and appends a historical batch at the
period boundary. -/
def processFinalUpdates (_ctx : EpochContext) (p : IEpochProcess) (s : BeaconState) :
    BeaconState :=
  let nextEpoch := p.currentEpoch + 1
  { s with
    validators := List.zipWith applyHysteresis s.validators s.balances
    slashings := s.slashings.set (nextEpoch % EPOCHS_PER_SLASHINGS_VECTOR) 0
    randaoMixes := s.randaoMixes.set (nextEpoch % EPOCHS_PER_HISTORICAL_VECTOR)
      (s.randaoMixes.getD (p.currentEpoch % EPOCHS_PER_HISTORICAL_VECTOR) 0)
    historicalRoots :=
      if nextEpoch * SLOTS_PER_EPOCH % SLOTS_PER_HISTORICAL_ROOT = 0 then
        s.historicalRoots ++ [s.blockRoots.foldl (fun a b => a + b) 0]
      else s.historicalRoots
    previousEpochAttestations := s.currentEpochAttestations
    currentEpochAttestations := [] }

/-! ## Stage: fork transition (spec section 4.8) -/

/-- Modelled from the spec: `processForkChanged` (section 4.8, source not
in the sample).  If the scheduled protocol-version epoch equals the epoch
just reached, rotate the fork version fields; the external notification is
a side channel outside the state and is not modelled.  No-op otherwise. -/
def processForkChanged (ctx : EpochContext) (p : IEpochProcess) (s : BeaconState) :
    BeaconState :=
  let nextEpoch := p.currentEpoch + 1
  if ctx.scheduledForkEpoch = nextEpoch then
    { s with
      forkPreviousVersion := s.forkCurrentVersion
      forkCurrentVersion := ctx.scheduledForkVersion
      forkEpoch := nextEpoch }
  else s

/-! ## The epoch transition pipeline (spec section 2 and the performance
test in the sample, which fixes the stage order) -/

/-- The eight pipeline stages, in the order the performance test drives
them. -/
inductive Stage where
  | loadContext
  | prepareProcess
  | justificationFinalization
  | rewardsPenalties
  | registryUpdates
  | slashingsStage
  | finalUpdates
  | forkChanged
deriving DecidableEq, Repr, Inhabited

/-- Combined pipeline state: the context, the (optional, not yet computed)
EpochProcess working set, and the beacon state. -/
structure TransitionState where
  ctx : EpochContext
  procOpt : Option IEpochProcess
  state : BeaconState
deriving DecidableEq, Repr, Inhabited

/-- Semantics of one pipeline stage.  Only `loadContext` writes the
context, only `prepareProcess` writes the working set, and the six
processing stages write only the beacon state, reading the working set. -/
def runStage : Stage → TransitionState → TransitionState
  | Stage.loadContext, ts => { ts with ctx := ts.ctx.loadState ts.state }
  | Stage.prepareProcess, ts =>
    { ts with procOpt := some (prepareEpochProcessState ts.ctx ts.state) }
  | Stage.justificationFinalization, ts =>
    { ts with state := processJustificationAndFinalization ts.ctx (ts.procOpt.getD default) ts.state }
  | Stage.rewardsPenalties, ts =>
    { ts with state := processRewardsAndPenalties ts.ctx (ts.procOpt.getD default) ts.state }
  | Stage.registryUpdates, ts =>
    { ts with state := processRegistryUpdates ts.ctx (ts.procOpt.getD default) ts.state }
  | Stage.slashingsStage, ts =>
    { ts with state := processSlashings ts.ctx (ts.procOpt.getD default) ts.state }
  | Stage.finalUpdates, ts =>
    { ts with state := processFinalUpdates ts.ctx (ts.procOpt.getD default) ts.state }
  | Stage.forkChanged, ts =>
    { ts with state := processForkChanged ts.ctx (ts.procOpt.getD default) ts.state }

/-- The fixed stage order of the epoch transition (spec section 2, and the
order of the `it` blocks in the performance test). -/
def epochStages : List Stage :=
  [Stage.loadContext, Stage.prepareProcess, Stage.justificationFinalization,
   Stage.rewardsPenalties, Stage.registryUpdates, Stage.slashingsStage,
   Stage.finalUpdates, Stage.forkChanged]

def runStages (stages : List Stage) (ts : TransitionState) : TransitionState :=
  stages.foldl (fun cur st => runStage st cur) ts

/-- Execution trace of a stage list: one entry `(stage, before, after)` per
stage, in execution order. -/
def stagesTrace (stages : List Stage) (ts : TransitionState) :
    List (Stage × TransitionState × TransitionState) :=
  match stages with
  | [] => []
  | st :: rest => (st, ts, runStage st ts) :: stagesTrace rest (runStage st ts)

/-- The whole epoch transition: the eight stages applied in order, starting
from a context and a beacon state, with no working set computed yet. -/
def epochTransition (ctx : EpochContext) (s : BeaconState) : BeaconState :=
  (runStages epochStages { ctx := ctx, procOpt := none, state := s }).state

/-- Trace of the whole epoch transition. -/
def epochTransitionTrace (ctx : EpochContext) (s : BeaconState) :
    List (Stage × TransitionState × TransitionState) :=
  stagesTrace epochStages { ctx := ctx, procOpt := none, state := s }

/-- Chaining predicate on a trace: every stage's input is its
predecessor's output. -/
def chainedTrace : List (Stage × TransitionState × TransitionState) → Prop
  | [] => True
  | [_] => True
  | x :: y :: rest => y.2.1 = x.2.2 ∧ chainedTrace (y :: rest)

/-! ## AttestationService.createAttestation (from src attestation.ts) -/

/-- Attestation data as used by the validator service. -/
structure AttestationData where
  slot : Nat
  committeeIndex : Nat
  beaconBlockRoot : Nat
  source : Checkpoint
  target : Checkpoint
deriving DecidableEq, Repr, Inhabited

/-- Attestation: data plus a signature (0 when unsigned). -/
structure Attestation where
  data : AttestationData
  signature : Nat
deriving DecidableEq, Repr, Inhabited

/-- Translation of `IValidatorDB.getAttestations(pubkey, \x7bgte\x7d)` for
one validator: the stored attestations whose target epoch is at least
`gte`. -/
def getAttestations (db : List Attestation) (gte : Nat) : List Attestation :=
  db.filter (fun a => decide (gte ≤ a.data.target.epoch))

/-- Translation of `AttestationService.isConflictingAttestation`: fetch the
stored attestations with target epoch at least the new data's target
epoch and test each against the new data with `isSlashableAttestationData`
(passed in as the abstract predicate `slashable`, whose source is in the
state-transition package outside the sample). -/
def isConflictingAttestation (slashable : AttestationData → AttestationData → Bool)
    (db : List Attestation) (other : AttestationData) : Bool :=
  (getAttestations db other.target.epoch).any (fun a => slashable a.data other)

/-- Translation of `AttestationService.storeAttestation`: store the new
attestation, then delete the stored attestations whose target epoch is
strictly below the new one (the `gte: 0, lt: target` cleanup fetch). -/
def storeAttestation (db : List Attestation) (att : Attestation) : List Attestation :=
  (db ++ [att]).filter (fun a => decide (att.data.target.epoch ≤ a.data.target.epoch))

/-- Translation of `AttestationService.createAttestation` (the produced
attestation from the API provider is passed in): if the freshly produced
data conflicts with a stored attestation the call throws — modelled as an
error outcome — before signing and storing, leaving the database
unchanged; otherwise it signs (abstracted by `sign`), stores, and returns
the signed attestation.  The pair's second component is the database after
the call. -/
def createAttestation (slashable : AttestationData → AttestationData → Bool)
    (sign : AttestationData → Nat) (produced : Attestation) (db : List Attestation) :
    Except String Attestation × List Attestation :=
  if isConflictingAttestation slashable db produced.data then
    (Except.error "Avoided signing conflicting attestation!", db)
  else
    let signed := { produced with signature := sign produced.data }
    (Except.ok signed, storeAttestation db signed)

/-! ## Execution payload serialization (from src beacon.ts) -/

/-- Lower-case hexadecimal digit character for a value below 16, as
produced by JS `toString(16)` and byte formatting. -/
def hexDigitChar (n : Nat) : Char :=
  if n < 10 then Char.ofNat (48 + n) else Char.ofNat (87 + n)

/-- Value of a (lower-case) hexadecimal digit character; JS parsing accepts
more, but the serializers emit only these. -/
def hexCharVal (c : Char) : Nat :=
  if 48 ≤ c.toNat ∧ c.toNat ≤ 57 then c.toNat - 48
  else if 97 ≤ c.toNat ∧ c.toNat ≤ 102 then c.toNat - 87
  else 0

/-- The two hex characters of one byte (high nibble first), matching
`b.toString(16).padStart(2, "0")`. -/
def byteHexChars (b : Nat) : List Char :=
  [hexDigitChar (b / 16), hexDigitChar (b % 16)]

/-- Modelled from the spec: ssz `toHexString` used by
`serializeExecutionPayload` (dependency outside the sample): the standard
`0x`-prefixed, two-lower-case-hex-digits-per-byte string of a byte list. -/
def toHexString (bytes : List Nat) : String :=
  String.mk ('0' :: 'x' :: (bytes.map byteHexChars).flatten)

/-- Parse consecutive pairs of hex characters into bytes. -/
def hexPairsToBytes : List Char → List Nat
  | c1 :: c2 :: rest => (16 * hexCharVal c1 + hexCharVal c2) :: hexPairsToBytes rest
  | _ => []

/-- Modelled from the spec: ssz `fromHexString` used by
`parseExecutionPayload` (dependency outside the sample): strip the `0x`
prefix and decode hex-character pairs into bytes. -/
def fromHexString (s : String) : List Nat :=
  hexPairsToBytes (s.data.drop 2)

/-- Minimal-length hex digit characters of a positive number, accumulating
into `acc` (most significant digit first). -/
def natHexDigitsAux : Nat → List Char → List Char
  | 0, acc => acc
  | n + 1, acc =>
    natHexDigitsAux ((n + 1) / 16) (hexDigitChar ((n + 1) % 16) :: acc)
decreasing_by exact Nat.div_lt_self (Nat.succ_pos n) (by omega)

/-- Hex digit characters of a number as produced by JS `toString(16)`
(minimal length, `"0"` for zero). -/
def natHexDigits (n : Nat) : List Char :=
  if n = 0 then ['0'] else natHexDigitsAux n []

/-- Modelled from the spec: `numberToHex` from the eth1 provider utils
(repository file outside the sample): `"0x" + num.toString(16)`. -/
def numberToHex (n : Nat) : String :=
  String.mk ('0' :: 'x' :: natHexDigits n)

/-- Modelled from the spec: `hexToNumber` from the eth1 provider utils
(repository file outside the sample): `parseInt(hex, 16)`, which skips the
`0x` prefix and folds the hex digits (JS precision limits do not arise for
values representable in the encoding). -/
def hexToNumber (s : String) : Nat :=
  (s.data.drop 2).foldl (fun acc c => 16 * acc + hexCharVal c) 0

/-- ExecutionPayload with byte fields as byte lists and numeric fields as
naturals, following `merge.ExecutionPayload`. -/
structure ExecutionPayload where
  parentHash : List Nat
  coinbase : List Nat
  stateRoot : List Nat
  receiptRoot : List Nat
  logsBloom : List Nat
  random : List Nat
  blockNumber : Nat
  gasLimit : Nat
  gasUsed : Nat
  timestamp : Nat
  extraData : List Nat
  baseFeePerGas : List Nat
  blockHash : List Nat
  transactions : List (List Nat)
deriving DecidableEq, Repr, Inhabited

/-- ExecutionPayloadRpc: the all-string wire form. -/
structure ExecutionPayloadRpc where
  parentHash : String
  coinbase : String
  stateRoot : String
  receiptRoot : String
  logsBloom : String
  random : String
  blockNumber : String
  gasLimit : String
  gasUsed : String
  timestamp : String
  extraData : String
  baseFeePerGas : String
  blockHash : String
  transactions : List String
deriving DecidableEq, Repr, Inhabited

/-- Translation of `serializeExecutionPayload` from `beacon.ts`. -/
def serializeExecutionPayload (data : ExecutionPayload) : ExecutionPayloadRpc :=
  { parentHash := toHexString data.parentHash
    coinbase := toHexString data.coinbase
    stateRoot := toHexString data.stateRoot
    receiptRoot := toHexString data.receiptRoot
    logsBloom := toHexString data.logsBloom
    random := toHexString data.random
    blockNumber := numberToHex data.blockNumber
    gasLimit := numberToHex data.gasLimit
    gasUsed := numberToHex data.gasUsed
    timestamp := numberToHex data.timestamp
    extraData := toHexString data.extraData
    baseFeePerGas := toHexString data.baseFeePerGas
    blockHash := toHexString data.blockHash
    transactions := data.transactions.map toHexString }

/-- Translation of `parseExecutionPayload` from `beacon.ts`. -/
def parseExecutionPayload (data : ExecutionPayloadRpc) : ExecutionPayload :=
  { parentHash := fromHexString data.parentHash
    coinbase := fromHexString data.coinbase
    stateRoot := fromHexString data.stateRoot
    receiptRoot := fromHexString data.receiptRoot
    logsBloom := fromHexString data.logsBloom
    random := fromHexString data.random
    blockNumber := hexToNumber data.blockNumber
    gasLimit := hexToNumber data.gasLimit
    gasUsed := hexToNumber data.gasUsed
    timestamp := hexToNumber data.timestamp
    extraData := fromHexString data.extraData
    baseFeePerGas := fromHexString data.baseFeePerGas
    blockHash := fromHexString data.blockHash
    transactions := data.transactions.map fromHexString }

/-- Byte validity of a byte list: every entry is an actual byte value. -/
def bytesValid (l : List Nat) : Bool :=
  l.all (fun b => decide (b < 256))

/-- Byte validity of every byte field of an execution payload. -/
def payloadBytesValid (p : ExecutionPayload) : Bool :=
  bytesValid p.parentHash && bytesValid p.coinbase && bytesValid p.stateRoot
    && bytesValid p.receiptRoot && bytesValid p.logsBloom && bytesValid p.random
    && bytesValid p.extraData && bytesValid p.baseFeePerGas && bytesValid p.blockHash
    && p.transactions.all bytesValid

/-! ## Concrete example data used by witnesses -/

/-- Fresh always-active validator with a given public key. -/
def exValidator (pk : Nat) : Validator :=
  { pubkey := pk
    effectiveBalance := MAX_EFFECTIVE_BALANCE
    activationEligibilityEpoch := 0
    activationEpoch := 0
    exitEpoch := FAR_FUTURE_EPOCH
    withdrawableEpoch := FAR_FUTURE_EPOCH
    slashed := false }

/-- Small well-formed state at epoch 10 with two validators. -/
def exState : BeaconState :=
  { slot := 320
    validators := [exValidator 11, exValidator 12]
    balances := [MAX_EFFECTIVE_BALANCE, MAX_EFFECTIVE_BALANCE]
    justificationBits := [false, false, false, false]
    previousJustifiedCheckpoint := { epoch := 8, root := 1 }
    currentJustifiedCheckpoint := { epoch := 9, root := 2 }
    finalizedCheckpoint := { epoch := 8, root := 1 }
    previousEpochAttestations := []
    currentEpochAttestations := []
    slashings := [0, 0, 0, 0]
    randaoMixes := [0, 0, 0, 0]
    blockRoots := [0, 0, 0, 0]
    historicalRoots := []
    forkPreviousVersion := 0
    forkCurrentVersion := 1
    forkEpoch := 0 }

/-- Context matching `exState`: both public keys mapped, no fork scheduled
soon. -/
def exCtx : EpochContext :=
  { pubkey2index := [(11, 0), (12, 1)]
    currentEpoch := 10
    totalActiveBalance := 2 * MAX_EFFECTIVE_BALANCE
    scheduledForkVersion := 2
    scheduledForkEpoch := 1000 }

/-! ## Claim C8 -/

/-- Claim C8: `BeaconApi.getValidator` returns a validator record only when
the public-key table maps the key to a non-zero index; for the validator at
index 0 it returns null although the key is present (the looked-up index is
tested for truthiness, not presence), and for unknown keys it also returns
null. -/
theorem getValidator_truthiness (ctx : EpochContext) (s : BeaconState) (pk : Nat) :
    (ctx.pubkey2index.lookup pk = some 0 → BeaconApi.getValidator ctx s pk = none)
    ∧ (ctx.pubkey2index.lookup pk = none → BeaconApi.getValidator ctx s pk = none)
    ∧ (∀ r, BeaconApi.getValidator ctx s pk = some r →
        ∃ i, ctx.pubkey2index.lookup pk = some i ∧ i ≠ 0) := by
  refine ⟨fun h => ?_, fun h => ?_, fun r h => ?_⟩
  · simp [BeaconApi.getValidator, h, truthyIndex]
  · simp [BeaconApi.getValidator, h, truthyIndex]
  · unfold BeaconApi.getValidator at h
    cases hl : ctx.pubkey2index.lookup pk with
    | none => rw [hl] at h; simp [truthyIndex] at h
    | some i =>
      rw [hl] at h
      by_cases hi : i = 0
      · subst hi; simp [truthyIndex] at h
      · exact ⟨i, rfl, hi⟩

/-- Witness for C8 at a concrete table: the key mapped to index 0 and an
unknown key both give null. -/
theorem getValidator_truthiness_witness :
    BeaconApi.getValidator exCtx exState 11 = none
    ∧ BeaconApi.getValidator exCtx exState 99 = none :=
  ⟨(getValidator_truthiness exCtx exState 11).1 (by decide),
   (getValidator_truthiness exCtx exState 99).2.1 (by decide)⟩

/-! ## Claim C3 (corrected) -/

/-- Counterexample to claim C3: for the unknown public key 99 the public
interface `BeaconApi.getValidator` returns null — a silent normal return —
rather than signalling an `IndexLookupError` as the claim states
(`beacon.ts` has no error path at all: `if (index) ... else return null`). -/
theorem getValidator_unknown_counterexample :
    BeaconApi.getValidator exCtx exState 99 = none := by decide

/-- Claim C3 as amended: requesting the index of an unknown public key from
the EpochContext fails with `IndexLookupError`, but the public interface
`BeaconApi.getValidator` does not surface that error: it returns null for
an unknown public key instead of signalling. -/
theorem indexLookup_unknown_pubkey (ctx : EpochContext) (s : BeaconState) (pk : Nat)
    (h : ctx.pubkey2index.lookup pk = none) :
    ctx.getValidatorIndex pk = Except.error (IndexLookupError.unknownPubkey pk)
    ∧ BeaconApi.getValidator ctx s pk = none := by
  constructor
  · unfold EpochContext.getValidatorIndex
    rw [h]
  · simp [BeaconApi.getValidator, h, truthyIndex]

/-- Witness for the amended C3 at the concrete unknown key 99. -/
theorem indexLookup_unknown_pubkey_witness :
    exCtx.getValidatorIndex 99 = Except.error (IndexLookupError.unknownPubkey 99)
    ∧ BeaconApi.getValidator exCtx exState 99 = none :=
  indexLookup_unknown_pubkey exCtx exState 99 (by decide)

/-! ## Claim C9 -/

/-- Claim C9: `AttestationService.createAttestation` never signs or stores
a slashable attestation: whenever the produced data is slashable against a
stored attestation whose target epoch is at least the new target epoch, the
call errors out before the signing and storing steps and the database is
unchanged. -/
theorem createAttestation_avoids_slashable
    (slashable : AttestationData → AttestationData → Bool)
    (sign : AttestationData → Nat) (produced : Attestation) (db : List Attestation)
    (h : ∃ a ∈ db, produced.data.target.epoch ≤ a.data.target.epoch ∧
      slashable a.data produced.data = true) :
    createAttestation slashable sign produced db =
      (Except.error "Avoided signing conflicting attestation!", db) := by
  obtain ⟨a, ha, hge, hsl⟩ := h
  have hc : isConflictingAttestation slashable db produced.data = true := by
    unfold isConflictingAttestation getAttestations
    rw [List.any_eq_true]
    exact ⟨a, List.mem_filter.mpr ⟨ha, by simpa using hge⟩, hsl⟩
  unfold createAttestation
  rw [hc]
  simp

/-- Equal-target double-vote slashing condition used by the C9 witness. -/
def exSlashable (a b : AttestationData) : Bool :=
  decide (a.target.epoch = b.target.epoch) && decide (a ≠ b)

/-- Stored attestation for the C9 witness. -/
def exStoredAtt : Attestation :=
  { data :=
      { slot := 200, committeeIndex := 0, beaconBlockRoot := 5
        source := { epoch := 5, root := 3 }, target := { epoch := 6, root := 4 } }
    signature := 1 }

/-- Freshly produced attestation for the C9 witness: same target epoch as
the stored one but a different block root, hence a double vote. -/
def exProducedAtt : Attestation :=
  { data :=
      { slot := 201, committeeIndex := 0, beaconBlockRoot := 9
        source := { epoch := 5, root := 3 }, target := { epoch := 6, root := 8 } }
    signature := 0 }

/-- Witness for C9: the conflicting produced attestation is rejected and
the database is returned unchanged. -/
theorem createAttestation_avoids_slashable_witness :
    createAttestation exSlashable (fun _ => 7) exProducedAtt [exStoredAtt] =
      (Except.error "Avoided signing conflicting attestation!", [exStoredAtt]) :=
  createAttestation_avoids_slashable exSlashable (fun _ => 7) exProducedAtt [exStoredAtt]
    ⟨exStoredAtt, by decide, by decide, by decide⟩

/-! ## Claim C5 -/

/-- Claim C5: the epoch transition is deterministic — identical copies of
the inputs give identical outputs; the transition is a pure function of the
(state, context) pair with no other dependency in the model. -/
theorem epochTransition_deterministic (ctx1 ctx2 : EpochContext) (s1 s2 : BeaconState)
    (hc : ctx1 = ctx2) (hs : s1 = s2) :
    epochTransition ctx1 s1 = epochTransition ctx2 s2 := by
  subst hc
  subst hs
  rfl

/-- Witness for C5 at the concrete example pair. -/
theorem epochTransition_deterministic_witness :
    epochTransition exCtx exState = epochTransition exCtx exState :=
  epochTransition_deterministic exCtx exCtx exState exState rfl rfl

/-! ## Claim C1 -/

/-- Claim C1: every epoch transition runs its stages strictly sequentially
in the fixed order EpochContext load, prepareEpochProcessState,
processJustificationAndFinalization, processRewardsAndPenalties,
processRegistryUpdates, processSlashings, processFinalUpdates,
processForkChanged; the trace lists exactly these eight stages in this
order, each exactly once, every stage starts from its predecessor's
completed output, and the final output is the transition's result. -/
theorem epochTransition_stage_order (ctx : EpochContext) (s : BeaconState) :
    (epochTransitionTrace ctx s).map (fun e => e.1) = epochStages
    ∧ (∀ st : Stage, ((epochTransitionTrace ctx s).map (fun e => e.1)).count st = 1)
    ∧ chainedTrace (epochTransitionTrace ctx s)
    ∧ (epochTransitionTrace ctx s).length = 8
    ∧ ((epochTransitionTrace ctx s).getLast?).map (fun e => e.2.2.state)
        = some (epochTransition ctx s) := by
  refine ⟨rfl, fun st => ?_, ?_, rfl, rfl⟩
  · cases st <;> rfl
  · simp [epochTransitionTrace, stagesTrace, epochStages, chainedTrace]

/-! ## Claim C2 -/

/-- Claim C2: the EpochProcess working set is computed exactly once per
transition — absent before the prepare stage, produced by it from the
context loaded first and the state as observed at the epoch boundary
(no stage has mutated it yet) — and every subsequent stage reads exactly
that value without modifying it: the working set is identical before and
after each of the six processing stages, and each stage's output is that
stage applied to this frozen working set. -/
theorem epochProcess_frozen (ctx : EpochContext) (s : BeaconState) :
    ((epochTransitionTrace ctx s).getD 0 default).2.1.procOpt = none
    ∧ ((epochTransitionTrace ctx s).getD 1 default).2.1.procOpt = none
    ∧ ((epochTransitionTrace ctx s).getD 1 default).2.1.ctx = EpochContext.loadState ctx s
    ∧ ((epochTransitionTrace ctx s).getD 1 default).2.1.state = s
    ∧ ((epochTransitionTrace ctx s).getD 1 default).2.2.procOpt
        = some (prepareEpochProcessState (EpochContext.loadState ctx s) s)
    ∧ (∀ i, 2 ≤ i → i ≤ 7 →
        ((epochTransitionTrace ctx s).getD i default).2.1.procOpt
            = some (prepareEpochProcessState (EpochContext.loadState ctx s) s)
          ∧ ((epochTransitionTrace ctx s).getD i default).2.2.procOpt
            = some (prepareEpochProcessState (EpochContext.loadState ctx s) s))
    ∧ ((epochTransitionTrace ctx s).getD 2 default).2.2.state
        = processJustificationAndFinalization (EpochContext.loadState ctx s)
            (prepareEpochProcessState (EpochContext.loadState ctx s) s) s
    ∧ ((epochTransitionTrace ctx s).getD 3 default).2.2.state
        = processRewardsAndPenalties (EpochContext.loadState ctx s)
            (prepareEpochProcessState (EpochContext.loadState ctx s) s)
            ((epochTransitionTrace ctx s).getD 3 default).2.1.state
    ∧ ((epochTransitionTrace ctx s).getD 4 default).2.2.state
        = processRegistryUpdates (EpochContext.loadState ctx s)
            (prepareEpochProcessState (EpochContext.loadState ctx s) s)
            ((epochTransitionTrace ctx s).getD 4 default).2.1.state
    ∧ ((epochTransitionTrace ctx s).getD 5 default).2.2.state
        = processSlashings (EpochContext.loadState ctx s)
            (prepareEpochProcessState (EpochContext.loadState ctx s) s)
            ((epochTransitionTrace ctx s).getD 5 default).2.1.state
    ∧ ((epochTransitionTrace ctx s).getD 6 default).2.2.state
        = processFinalUpdates (EpochContext.loadState ctx s)
            (prepareEpochProcessState (EpochContext.loadState ctx s) s)
            ((epochTransitionTrace ctx s).getD 6 default).2.1.state
    ∧ ((epochTransitionTrace ctx s).getD 7 default).2.2.state
        = processForkChanged (EpochContext.loadState ctx s)
            (prepareEpochProcessState (EpochContext.loadState ctx s) s)
            ((epochTransitionTrace ctx s).getD 7 default).2.1.state := by
  refine ⟨rfl, rfl, rfl, rfl, rfl, ?_, rfl, rfl, rfl, rfl, rfl, rfl⟩
  intro i h2 h7
  interval_cases i <;> exact ⟨rfl, rfl⟩

/-- Witness for C2 at the concrete example pair, reading off the frozen
working set around the rewards stage. -/
theorem epochProcess_frozen_witness :
    ((epochTransitionTrace exCtx exState).getD 3 default).2.1.procOpt
        = some (prepareEpochProcessState (EpochContext.loadState exCtx exState) exState)
    ∧ ((epochTransitionTrace exCtx exState).getD 3 default).2.2.procOpt
        = some (prepareEpochProcessState (EpochContext.loadState exCtx exState) exState) :=
  (epochProcess_frozen exCtx exState).2.2.2.2.2.1 3 (by omega) (by omega)

/-! ## Claim C4 -/

/-- The finalization rule set only ever selects one of the two old
justified checkpoints or keeps the old finalized checkpoint. -/
lemma selectFinalized_cases (bits : List Bool) (a b f : Checkpoint) (e : Nat) :
    selectFinalized bits a b f e = a ∨ selectFinalized bits a b f e = b
      ∨ selectFinalized bits a b f e = f := by
  unfold selectFinalized
  split_ifs <;> simp

/-- Justification and finalization never lower the finalized epoch on a
state whose justified checkpoints are not behind its finalized one. -/
lemma processJF_finalized_mono (ctx : EpochContext) (p : IEpochProcess) (s : BeaconState)
    (h1 : s.finalizedCheckpoint.epoch ≤ s.previousJustifiedCheckpoint.epoch)
    (h2 : s.finalizedCheckpoint.epoch ≤ s.currentJustifiedCheckpoint.epoch) :
    s.finalizedCheckpoint.epoch
      ≤ (processJustificationAndFinalization ctx p s).finalizedCheckpoint.epoch := by
  unfold processJustificationAndFinalization
  split
  · exact le_refl _
  · dsimp only
    rcases selectFinalized_cases
        (if decide (3 * p.currTargetUnslashedStake ≥ 2 * p.totalActiveStake) then
          (if decide (3 * p.prevTargetUnslashedStake ≥ 2 * p.totalActiveStake) then
            (false :: s.justificationBits.take 3).set 1 true
          else false :: s.justificationBits.take 3).set 0 true
        else
          (if decide (3 * p.prevTargetUnslashedStake ≥ 2 * p.totalActiveStake) then
            (false :: s.justificationBits.take 3).set 1 true
          else false :: s.justificationBits.take 3))
        s.previousJustifiedCheckpoint s.currentJustifiedCheckpoint
        s.finalizedCheckpoint p.currentEpoch with h | h | h
    · rw [h]; exact h1
    · rw [h]; exact h2
    · rw [h]

/-- Rewards and penalties leave the finalized checkpoint untouched. -/
lemma processRP_finalized (ctx : EpochContext) (p : IEpochProcess) (s : BeaconState) :
    (processRewardsAndPenalties ctx p s).finalizedCheckpoint = s.finalizedCheckpoint := by
  unfold processRewardsAndPenalties
  split <;> rfl

/-- Registry updates leave the finalized checkpoint untouched. -/
lemma processRU_finalized (ctx : EpochContext) (p : IEpochProcess) (s : BeaconState) :
    (processRegistryUpdates ctx p s).finalizedCheckpoint = s.finalizedCheckpoint := rfl

/-- Slashings leave the finalized checkpoint untouched. -/
lemma processSl_finalized (ctx : EpochContext) (p : IEpochProcess) (s : BeaconState) :
    (processSlashings ctx p s).finalizedCheckpoint = s.finalizedCheckpoint := rfl

/-- Final updates leave the finalized checkpoint untouched. -/
lemma processFU_finalized (ctx : EpochContext) (p : IEpochProcess) (s : BeaconState) :
    (processFinalUpdates ctx p s).finalizedCheckpoint = s.finalizedCheckpoint := rfl

/-- Fork transition leaves the finalized checkpoint untouched. -/
lemma processFC_finalized (ctx : EpochContext) (p : IEpochProcess) (s : BeaconState) :
    (processForkChanged ctx p s).finalizedCheckpoint = s.finalizedCheckpoint := by
  unfold processForkChanged
  dsimp only
  split <;> rfl

/-- Claim C4: the finalized checkpoint epoch is monotonically
non-decreasing — on a valid state (justified checkpoints not behind the
finalized one) it never decreases across
`processJustificationAndFinalization`, and hence not across the whole
epoch transition either, since no later stage writes it. -/
theorem finalized_epoch_monotone (ctx : EpochContext) (p : IEpochProcess) (s : BeaconState)
    (h1 : s.finalizedCheckpoint.epoch ≤ s.previousJustifiedCheckpoint.epoch)
    (h2 : s.finalizedCheckpoint.epoch ≤ s.currentJustifiedCheckpoint.epoch) :
    s.finalizedCheckpoint.epoch
        ≤ (processJustificationAndFinalization ctx p s).finalizedCheckpoint.epoch
    ∧ s.finalizedCheckpoint.epoch ≤ (epochTransition ctx s).finalizedCheckpoint.epoch := by
  refine ⟨processJF_finalized_mono ctx p s h1 h2, ?_⟩
  simp only [epochTransition, runStages, epochStages, List.foldl_cons, List.foldl_nil,
    runStage, Option.getD_some]
  rw [processFC_finalized, processFU_finalized, processSl_finalized, processRU_finalized,
    processRP_finalized]
  exact processJF_finalized_mono _ _ s h1 h2

/-- Witness for C4 at the concrete example state (finalized epoch 8,
justified epochs 8 and 9). -/
theorem finalized_epoch_monotone_witness :
    exState.finalizedCheckpoint.epoch
        ≤ (processJustificationAndFinalization exCtx
            (prepareEpochProcessState exCtx exState) exState).finalizedCheckpoint.epoch
    ∧ exState.finalizedCheckpoint.epoch
        ≤ (epochTransition exCtx exState).finalizedCheckpoint.epoch :=
  finalized_epoch_monotone exCtx (prepareEpochProcessState exCtx exState) exState
    (by decide) (by decide)

/-! ## Claim C6 -/

/-- Claim C6: for every validator active in the previous epoch the base
reward used by the rewards stage equals
effectiveBalance * BASE_REWARD_FACTOR / integerSqrt totalActiveStake /
BASE_REWARDS_PER_EPOCH with floor (truncating) integer division at each
division — characterized exactly by the floor bounds below — and the stage
charges that base reward as the source penalty when the validator failed to
attest; the whole stage is `Nat` (integer) arithmetic, no floating point
exists in the model. -/
theorem base_reward_floor (p : IEpochProcess) (st : ValidatorStatus) (fd : Nat)
    (hactive : st.activePrev = true) (hpos : 0 < integerSqrt p.totalActiveStake) :
    getBaseReward p st.effectiveBalance
        = st.effectiveBalance * BASE_REWARD_FACTOR / integerSqrt p.totalActiveStake
          / BASE_REWARDS_PER_EPOCH
    ∧ getBaseReward p st.effectiveBalance
          * (integerSqrt p.totalActiveStake * BASE_REWARDS_PER_EPOCH)
        ≤ st.effectiveBalance * BASE_REWARD_FACTOR
    ∧ st.effectiveBalance * BASE_REWARD_FACTOR
        < (getBaseReward p st.effectiveBalance + 1)
          * (integerSqrt p.totalActiveStake * BASE_REWARDS_PER_EPOCH)
    ∧ (st.attestedPrevSource = false →
        getBaseReward p st.effectiveBalance ≤ (attestationDelta p fd st).2) := by
  have hk : 0 < integerSqrt p.totalActiveStake * BASE_REWARDS_PER_EPOCH := by
    have : (0:Nat) < BASE_REWARDS_PER_EPOCH := by decide
    exact Nat.mul_pos hpos this
  have hdd : getBaseReward p st.effectiveBalance
      = st.effectiveBalance * BASE_REWARD_FACTOR
        / (integerSqrt p.totalActiveStake * BASE_REWARDS_PER_EPOCH) := by
    unfold getBaseReward
    rw [Nat.div_div_eq_div_mul]
  refine ⟨rfl, ?_, ?_, ?_⟩
  · rw [hdd]
    exact Nat.div_mul_le_self _ _
  · rw [hdd]
    have := (Nat.div_lt_iff_lt_mul hk).mp
      (Nat.lt_succ_self (st.effectiveBalance * BASE_REWARD_FACTOR
        / (integerSqrt p.totalActiveStake * BASE_REWARDS_PER_EPOCH)))
    exact this
  · intro hsrc
    simp only [attestationDelta, hactive, hsrc, participationComponent, Bool.false_and]
    simp only [Bool.false_eq_true, if_false]
    exact le_trans (Nat.le_add_right _ _)
      (le_trans (Nat.le_add_right _ _) (Nat.le_add_right _ _))

/-- Working-set for the C6 witness: total active stake 64 (integer square
root 8). -/
def exProcessC6 : IEpochProcess :=
  { currentEpoch := 10, prevEpoch := 9, totalActiveStake := 64
    prevSourceUnslashedStake := 0, prevTargetUnslashedStake := 0
    prevHeadUnslashedStake := 0, currTargetUnslashedStake := 0, statuses := [] }

/-- Status for the C6 witness: active in the previous epoch, did not
attest. -/
def exStatusC6 : ValidatorStatus :=
  { activePrev := true, activeCurr := true, attestedPrevSource := false
    attestedPrevTarget := false, attestedPrevHead := false
    attestedCurrSource := false, attestedCurrTarget := false
    inclusionDelay := 1, slashed := false, effectiveBalance := 1000 }

/-- Witness for C6 at the concrete working set and status. -/
theorem base_reward_floor_witness :
    getBaseReward exProcessC6 exStatusC6.effectiveBalance
        = exStatusC6.effectiveBalance * BASE_REWARD_FACTOR
          / integerSqrt exProcessC6.totalActiveStake / BASE_REWARDS_PER_EPOCH
    ∧ getBaseReward exProcessC6 exStatusC6.effectiveBalance
          * (integerSqrt exProcessC6.totalActiveStake * BASE_REWARDS_PER_EPOCH)
        ≤ exStatusC6.effectiveBalance * BASE_REWARD_FACTOR
    ∧ exStatusC6.effectiveBalance * BASE_REWARD_FACTOR
        < (getBaseReward exProcessC6 exStatusC6.effectiveBalance + 1)
          * (integerSqrt exProcessC6.totalActiveStake * BASE_REWARDS_PER_EPOCH)
    ∧ (exStatusC6.attestedPrevSource = false →
        getBaseReward exProcessC6 exStatusC6.effectiveBalance
          ≤ (attestationDelta exProcessC6 0 exStatusC6).2) :=
  base_reward_floor exProcessC6 exStatusC6 0 (by decide)
    (Nat.sqrt_pos.mpr (by decide))

/-! ## Claim C10 -/

/-- Encoding then decoding a hex digit below 16 is the identity. -/
lemma hexCharVal_hexDigitChar (d : Nat) (h : d < 16) :
    hexCharVal (hexDigitChar d) = d := by
  interval_cases d <;> rfl

/-- Decoding the concatenated byte encodings recovers the byte list. -/
lemma hexPairsToBytes_roundtrip (bytes : List Nat) (h : ∀ b ∈ bytes, b < 256) :
    hexPairsToBytes ((bytes.map byteHexChars).flatten) = bytes := by
  induction bytes with
  | nil => rfl
  | cons b bs ih =>
    have hb : b < 256 := h b (List.mem_cons_self b bs)
    have hdiv : b / 16 < 16 := by omega
    have hmod : b % 16 < 16 := by omega
    simp only [List.map_cons, List.flatten_cons, byteHexChars, List.cons_append,
      List.nil_append, hexPairsToBytes]
    rw [hexCharVal_hexDigitChar _ hdiv, hexCharVal_hexDigitChar _ hmod]
    have heq : 16 * (b / 16) + b % 16 = b := by omega
    rw [heq]
    exact congrArg (List.cons b) (ih (fun x hx => h x (List.mem_cons_of_mem b hx)))

/-- fromHexString is a left inverse of toHexString on byte lists. -/
lemma fromHex_toHex (bytes : List Nat) (h : ∀ b ∈ bytes, b < 256) :
    fromHexString (toHexString bytes) = bytes := by
  unfold fromHexString toHexString
  simp only [String.data]
  exact hexPairsToBytes_roundtrip bytes h

/-- The digit accumulator splits off its accumulator as a suffix. -/
lemma natHexDigitsAux_append (n : Nat) (acc : List Char) :
    natHexDigitsAux n acc = natHexDigitsAux n [] ++ acc := by
  induction n using Nat.strong_induction_on generalizing acc with
  | _ n ih =>
    match n with
    | 0 => simp [natHexDigitsAux]
    | m + 1 =>
      rw [natHexDigitsAux, natHexDigitsAux]
      have hlt : (m + 1) / 16 < m + 1 := Nat.div_lt_self (Nat.succ_pos m) (by omega)
      rw [ih _ hlt (hexDigitChar ((m + 1) % 16) :: acc),
        ih _ hlt [hexDigitChar ((m + 1) % 16)]]
      simp

/-- Folding the hex digits of `n` onto accumulator `a` yields the value of
`a` shifted past those digits plus `n`. -/
lemma natHexDigitsAux_foldl (n : Nat) (a : Nat) :
    (natHexDigitsAux n []).foldl (fun acc c => 16 * acc + hexCharVal c) a
      = a * 16 ^ (natHexDigitsAux n []).length + n := by
  induction n using Nat.strong_induction_on generalizing a with
  | _ n ih =>
    match n with
    | 0 => simp [natHexDigitsAux]
    | m + 1 =>
      rw [natHexDigitsAux, natHexDigitsAux_append]
      have hlt : (m + 1) / 16 < m + 1 := Nat.div_lt_self (Nat.succ_pos m) (by omega)
      rw [List.foldl_append, List.length_append, ih _ hlt]
      simp only [List.foldl_cons, List.foldl_nil, List.length_cons, List.length_nil]
      rw [hexCharVal_hexDigitChar _ (Nat.mod_lt _ (by omega))]
      have heq : 16 * ((m + 1) / 16) + (m + 1) % 16 = m + 1 := by omega
      ring_nf
      omega

/-- hexToNumber is a left inverse of numberToHex. -/
lemma hexToNumber_numberToHex (n : Nat) : hexToNumber (numberToHex n) = n := by
  unfold hexToNumber numberToHex
  simp only [String.data]
  by_cases h0 : n = 0
  · subst h0; rfl
  · unfold natHexDigits
    rw [if_neg h0]
    show (natHexDigitsAux n []).foldl (fun acc c => 16 * acc + hexCharVal c) 0 = n
    rw [natHexDigitsAux_foldl]
    simp

/-- Claim C10: `parseExecutionPayload` is a left inverse of
`serializeExecutionPayload`: for every execution payload whose byte fields
hold actual byte values (the representability condition of the hex
encoding), parsing the serialization recovers the payload field for
field. -/
theorem parseExecutionPayload_serialize (p : ExecutionPayload)
    (h : payloadBytesValid p = true) :
    parseExecutionPayload (serializeExecutionPayload p) = p := by
  simp only [payloadBytesValid, Bool.and_eq_true, bytesValid, List.all_eq_true,
    decide_eq_true_eq] at h
  obtain ⟨⟨⟨⟨⟨⟨⟨⟨⟨h1, h2⟩, h3⟩, h4⟩, h5⟩, h6⟩, h7⟩, h8⟩, h9⟩, h10⟩ := h
  unfold parseExecutionPayload serializeExecutionPayload
  cases p with
  | mk parentHash coinbase stateRoot receiptRoot logsBloom random blockNumber
      gasLimit gasUsed timestamp extraData baseFeePerGas blockHash transactions =>
    simp only [ExecutionPayload.mk.injEq]
    refine ⟨fromHex_toHex _ h1, fromHex_toHex _ h2, fromHex_toHex _ h3,
      fromHex_toHex _ h4, fromHex_toHex _ h5, fromHex_toHex _ h6,
      hexToNumber_numberToHex _, hexToNumber_numberToHex _,
      hexToNumber_numberToHex _, hexToNumber_numberToHex _,
      fromHex_toHex _ h7, fromHex_toHex _ h8, fromHex_toHex _ h9, ?_⟩
    rw [List.map_map]
    exact List.map_congr_left (fun t ht => fromHex_toHex t (h10 t ht)) |>.trans
      (List.map_id transactions)

/-- Concrete payload for the C10 witness. -/
def exPayload : ExecutionPayload :=
  { parentHash := [1, 2], coinbase := [255], stateRoot := [0], receiptRoot := [16]
    logsBloom := [], random := [171, 205], blockNumber := 0, gasLimit := 30000000
    gasUsed := 12345, timestamp := 1634000000, extraData := []
    baseFeePerGas := [7], blockHash := [222, 173, 190, 239], transactions := [[1], [], [0, 255]] }

/-- Witness for C10 at the concrete payload. -/
theorem parseExecutionPayload_serialize_witness :
    parseExecutionPayload (serializeExecutionPayload exPayload) = exPayload :=
  parseExecutionPayload_serialize exPayload (by decide)

/-! ## Claim C7 -/

/-- Inserting into a list is a permutation of consing. -/
lemma insSorted_perm (le : Nat → Nat → Bool) (x : Nat) (l : List Nat) :
    (insSorted le x l).Perm (x :: l) := by
  induction l with
  | nil => exact List.Perm.refl _
  | cons y ys ih =>
    unfold insSorted
    split
    · exact List.Perm.refl _
    · exact (List.Perm.cons y ih).trans (List.Perm.swap x y ys)

/-- Membership in an insertion. -/
lemma mem_insSorted (le : Nat → Nat → Bool) {x z : Nat} {l : List Nat} :
    z ∈ insSorted le x l ↔ z = x ∨ z ∈ l :=
  ((insSorted_perm le x l).mem_iff).trans List.mem_cons

/-- Sorting is a permutation. -/
lemma sortByLe_perm (le : Nat → Nat → Bool) (l : List Nat) :
    (sortByLe le l).Perm l := by
  induction l with
  | nil => exact List.Perm.refl _
  | cons x xs ih =>
    exact (insSorted_perm le x (sortByLe le xs)).trans (List.Perm.cons x ih)

/-- Insertion preserves sortedness for a total transitive boolean order. -/
lemma pairwise_insSorted (le : Nat → Nat → Bool)
    (htot : ∀ a b, le a b = false → le b a = true)
    (htrans : ∀ a b c, le a b = true → le b c = true → le a c = true)
    (x : Nat) (l : List Nat) (hl : l.Pairwise (fun a b => le a b = true)) :
    (insSorted le x l).Pairwise (fun a b => le a b = true) := by
  induction l with
  | nil => simp [insSorted]
  | cons y ys ih =>
    rw [List.pairwise_cons] at hl
    obtain ⟨hy, hys⟩ := hl
    unfold insSorted
    split
    case isTrue hxy =>
      rw [List.pairwise_cons]
      refine ⟨?_, List.pairwise_cons.mpr ⟨hy, hys⟩⟩
      intro b hb
      rcases List.mem_cons.mp hb with rfl | hb
      · exact hxy
      · exact htrans x y b hxy (hy b hb)
    case isFalse hxy =>
      rw [List.pairwise_cons]
      refine ⟨?_, ih hys⟩
      intro b hb
      rcases (mem_insSorted le).mp hb with heq | hb
      · rw [heq]
        exact htot x y (by simpa using hxy)
      · exact hy b hb

/-- Insertion sort sorts, for a total transitive boolean order. -/
lemma sortByLe_pairwise (le : Nat → Nat → Bool)
    (htot : ∀ a b, le a b = false → le b a = true)
    (htrans : ∀ a b c, le a b = true → le b c = true → le a c = true)
    (l : List Nat) :
    (sortByLe le l).Pairwise (fun a b => le a b = true) := by
  induction l with
  | nil => simp [sortByLe]
  | cons x xs ih => exact pairwise_insSorted le htot htrans x _ ih

/-- The activation order is total. -/
lemma activationOrder_total (s : BeaconState) (i j : Nat)
    (h : activationOrder s i j = false) : activationOrder s j i = true := by
  simp only [activationOrder, Bool.or_eq_false_iff, Bool.and_eq_false_iff,
    decide_eq_false_iff_not, Bool.or_eq_true, Bool.and_eq_true, decide_eq_true_eq] at h ⊢
  omega

/-- The activation order is transitive. -/
lemma activationOrder_trans (s : BeaconState) (a b c : Nat)
    (h1 : activationOrder s a b = true) (h2 : activationOrder s b c = true) :
    activationOrder s a c = true := by
  simp only [activationOrder, Bool.or_eq_true, Bool.and_eq_true, decide_eq_true_eq] at h1 h2 ⊢
  omega

/-- The activation queue has no duplicate indices. -/
lemma activationQueue_nodup (s : BeaconState) : (activationQueue s).Nodup :=
  ((sortByLe_perm _ _).nodup_iff).mpr ((List.nodup_range _).filter _)

/-- Queue membership is exactly in-range eligibility. -/
lemma mem_activationQueue {s : BeaconState} {i : Nat} :
    i ∈ activationQueue s ↔ i < s.validators.length
      ∧ isEligibleForActivation s.finalizedCheckpoint.epoch
          (s.validators.getD i default) = true := by
  unfold activationQueue
  rw [List.Perm.mem_iff (sortByLe_perm _ _)]
  simp [List.mem_filter, List.mem_range]

/-- activateFrom preserves the length. -/
lemma activateFrom_length (t : List Nat) (e k : Nat) (vs : List Validator) :
    (activateFrom t e k vs).length = vs.length := by
  induction vs generalizing k with
  | nil => rfl
  | cons v tail ih => simp [activateFrom, ih]

/-- Pointwise description of activateFrom. -/
lemma activateFrom_getD (t : List Nat) (e k : Nat) (vs : List Validator) (i : Nat)
    (h : i < vs.length) :
    (activateFrom t e k vs).getD i default
      = if t.contains (k + i) then activateValidator e (vs.getD i default)
        else vs.getD i default := by
  induction vs generalizing k i with
  | nil => simp at h
  | cons v tail ih =>
    cases i with
    | zero => simp [activateFrom]
    | succ j =>
      have hj : j < tail.length := by simpa using h
      simp only [activateFrom, List.getD_cons_succ]
      rw [ih (k + 1) j hj]
      have heq : k + 1 + j = k + (j + 1) := by omega
      rw [heq]

/-- Claim C7: with n validators eligible for activation and churn limit c,
the registry-updates stage activates exactly the first min(n, c) of the
activation queue ordered ascending by (activationEligibilityEpoch, index),
leaves every other validator record as the eligibility pass left it, keeps
the remaining eligible validators queued (still eligible, records
unchanged), and preserves the registry length.  The churn limit is
max(MIN_PER_EPOCH_CHURN_LIMIT, activeValidatorCount / CHURN_LIMIT_QUOTIENT). -/
theorem processRegistryUpdates_churn (ctx : EpochContext) (p : IEpochProcess)
    (s : BeaconState) :
    getChurnLimit (countActive s p.currentEpoch)
        = max MIN_PER_EPOCH_CHURN_LIMIT (countActive s p.currentEpoch / CHURN_LIMIT_QUOTIENT)
    ∧ (activationQueue (markEligibility p.currentEpoch s)).Pairwise
        (fun i j => activationOrder (markEligibility p.currentEpoch s) i j = true)
    ∧ ((activationQueue (markEligibility p.currentEpoch s)).take
          (getChurnLimit (countActive s p.currentEpoch))).length
        = min (activationQueue (markEligibility p.currentEpoch s)).length
            (getChurnLimit (countActive s p.currentEpoch))
    ∧ (∀ i ∈ (activationQueue (markEligibility p.currentEpoch s)).take
          (getChurnLimit (countActive s p.currentEpoch)),
        (processRegistryUpdates ctx p s).validators.getD i default
          = activateValidator p.currentEpoch
              ((markEligibility p.currentEpoch s).validators.getD i default))
    ∧ (∀ i, i < s.validators.length →
        i ∉ (activationQueue (markEligibility p.currentEpoch s)).take
          (getChurnLimit (countActive s p.currentEpoch)) →
        (processRegistryUpdates ctx p s).validators.getD i default
          = (markEligibility p.currentEpoch s).validators.getD i default)
    ∧ (∀ i ∈ (activationQueue (markEligibility p.currentEpoch s)).drop
          (getChurnLimit (countActive s p.currentEpoch)),
        (processRegistryUpdates ctx p s).validators.getD i default
            = (markEligibility p.currentEpoch s).validators.getD i default
          ∧ isEligibleForActivation
              (processRegistryUpdates ctx p s).finalizedCheckpoint.epoch
              ((processRegistryUpdates ctx p s).validators.getD i default) = true)
    ∧ (processRegistryUpdates ctx p s).validators.length = s.validators.length := by
  have hlen1 : (markEligibility p.currentEpoch s).validators.length
      = s.validators.length := by
    simp [markEligibility]
  have hr : (processRegistryUpdates ctx p s).validators
      = activateFrom
          ((activationQueue (markEligibility p.currentEpoch s)).take
            (getChurnLimit (countActive s p.currentEpoch)))
          p.currentEpoch 0 (markEligibility p.currentEpoch s).validators := rfl
  have hfin1 : (markEligibility p.currentEpoch s).finalizedCheckpoint
      = s.finalizedCheckpoint := rfl
  have hfinr : (processRegistryUpdates ctx p s).finalizedCheckpoint
      = s.finalizedCheckpoint := rfl
  have htake : ∀ i ∈ (activationQueue (markEligibility p.currentEpoch s)).take
        (getChurnLimit (countActive s p.currentEpoch)),
      (processRegistryUpdates ctx p s).validators.getD i default
        = activateValidator p.currentEpoch
            ((markEligibility p.currentEpoch s).validators.getD i default) := by
    intro i hi
    have hiq : i ∈ activationQueue (markEligibility p.currentEpoch s) :=
      List.take_subset _ _ hi
    have hibound : i < (markEligibility p.currentEpoch s).validators.length :=
      (mem_activationQueue.mp hiq).1
    rw [hr, activateFrom_getD _ _ 0 _ i hibound]
    rw [Nat.zero_add]
    rw [if_pos (by simpa [List.contains] using List.elem_iff.mpr hi)]
  have hskip : ∀ i, i < s.validators.length →
      i ∉ (activationQueue (markEligibility p.currentEpoch s)).take
        (getChurnLimit (countActive s p.currentEpoch)) →
      (processRegistryUpdates ctx p s).validators.getD i default
        = (markEligibility p.currentEpoch s).validators.getD i default := by
    intro i hilen hnotin
    have hibound : i < (markEligibility p.currentEpoch s).validators.length := by
      omega
    rw [hr, activateFrom_getD _ _ 0 _ i hibound]
    rw [Nat.zero_add]
    rw [if_neg]
    intro hc
    exact hnotin (List.elem_iff.mp (by simpa [List.contains] using hc))
  refine ⟨rfl, ?_, ?_, htake, hskip, ?_, ?_⟩
  · exact sortByLe_pairwise _ (activationOrder_total _) (activationOrder_trans _) _
  · rw [List.length_take]
    exact Nat.min_comm _ _
  · intro i hi
    have hiq : i ∈ activationQueue (markEligibility p.currentEpoch s) :=
      List.drop_subset _ _ hi
    have hibound : i < (markEligibility p.currentEpoch s).validators.length :=
      (mem_activationQueue.mp hiq).1
    have hnotin : i ∉ (activationQueue (markEligibility p.currentEpoch s)).take
        (getChurnLimit (countActive s p.currentEpoch)) := by
      intro hitake
      exact List.disjoint_take_drop (activationQueue_nodup _) (le_refl _) hitake hi
    have hunch := hskip i (by omega) hnotin
    refine ⟨hunch, ?_⟩
    rw [hunch, hfinr, ← hfin1]
    exact (mem_activationQueue.mp hiq).2
  · rw [hr, activateFrom_length, hlen1]

/-- Validator for the C7 witness: maximal effective balance, eligibility
recorded at the given epoch, not yet activated. -/
def exValC7 (elig : Nat) : Validator :=
  { pubkey := 0
    effectiveBalance := MAX_EFFECTIVE_BALANCE
    activationEligibilityEpoch := elig
    activationEpoch := FAR_FUTURE_EPOCH
    exitEpoch := FAR_FUTURE_EPOCH
    withdrawableEpoch := FAR_FUTURE_EPOCH
    slashed := false }

/-- State for the C7 witness: six validators eligible for activation with
eligibility epochs 3, 1, 2, 1, 5, 2 and no active validator, so the churn
limit evaluates to MIN_PER_EPOCH_CHURN_LIMIT = 4 and the sorted queue is
1, 3, 2, 5, 0, 4. -/
def exStateC7 : BeaconState :=
  { exState with
    validators := [exValC7 3, exValC7 1, exValC7 2, exValC7 1, exValC7 5, exValC7 2]
    balances := [0, 0, 0, 0, 0, 0] }

/-- Witness for C7: validator 1 (head of the queue) is activated, validator
0 (beyond the churn limit) is unchanged, and the activated prefix has
length min(6, 4) = 4. -/
theorem processRegistryUpdates_churn_witness :
    (processRegistryUpdates exCtx exProcessC6 exStateC7).validators.getD 1 default
        = activateValidator exProcessC6.currentEpoch
            ((markEligibility exProcessC6.currentEpoch exStateC7).validators.getD 1 default)
    ∧ (processRegistryUpdates exCtx exProcessC6 exStateC7).validators.getD 0 default
        = (markEligibility exProcessC6.currentEpoch exStateC7).validators.getD 0 default
    ∧ ((activationQueue (markEligibility exProcessC6.currentEpoch exStateC7)).take
          (getChurnLimit (countActive exStateC7 exProcessC6.currentEpoch))).length
        = min (activationQueue (markEligibility exProcessC6.currentEpoch exStateC7)).length
            (getChurnLimit (countActive exStateC7 exProcessC6.currentEpoch)) := by
  have h := processRegistryUpdates_churn exCtx exProcessC6 exStateC7
  exact ⟨h.2.2.2.1 1 (by decide), (h.2.2.2.2.2.1 0 (by decide)).1, h.2.2.1⟩
